import Mathlib

/-!
Shallow embedding of the `logs` package (Go): a leveled logging dispatcher
(`log.go`), its helpers (`log_utils.go`), and the rotating file sink
(`fileLogWriter`).  File-system effects (open/stat/rename/remove, the
goroutine id, wall-clock time) are made explicit: file content is a
`List Char`, success of an OS call is a `Bool` oracle parameter, and a
directory is a list of `FileEntry` records.  Go `int`/`int64` counters are
modeled as `Int`, log levels as `Nat`.
-/

namespace Logs

/-- Log level ordinals, from `log.go` lines 16-22 (`DEBUG = iota`, ...). -/
def DEBUG : Nat := 0

/-- INFO level ordinal. -/
def INFO : Nat := 1

/-- WARN level ordinal. -/
def WARN : Nat := 2

/-- ERROR level ordinal. -/
def ERROR : Nat := 3

/-- FATAL level ordinal. -/
def FATAL : Nat := 4

/-- `transLogLevel` from `log_utils.go` lines 19-36: a `switch` on the level
name, written here as the equivalent chain of equality tests; both the
initial value and the `default` arm are `DEBUG`. -/
def transLogLevel (level : String) : Nat :=
  if level = "DEBUG" then DEBUG
  else if level = "INFO" then INFO
  else if level = "WARN" then WARN
  else if level = "ERROR" then ERROR
  else if level = "FATAL" then FATAL
  else DEBUG

/-- A wall-clock instant, standing for Go `time.Time` broken into the fields
the code reads (`Format`, `Date`, `Nanosecond`, `Day`, `Unix`). -/
structure GoTime where
  year : Nat
  month : Nat
  day : Nat
  hour : Nat
  minute : Nat
  second : Nat
  nanosecond : Nat
deriving DecidableEq

/-- Zero-padding to two digits, as Go layout fields `01`, `02`, `15`, `04`,
`05` render. -/
def pad2 (n : Nat) : String :=
  if n < 10 then "0" ++ toString n else toString n

/-- Zero-padding to four digits, as the Go layout field `2006` renders. -/
def pad4 (n : Nat) : String :=
  if n < 10 then "000" ++ toString n
  else if n < 100 then "00" ++ toString n
  else if n < 1000 then "0" ++ toString n
  else toString n

/-- Go `when.Format ("2006-01-02 15:04:05")`. -/
def goDateTime (t : GoTime) : String :=
  pad4 t.year ++ "-" ++ pad2 t.month ++ "-" ++ pad2 t.day ++ " " ++
    pad2 t.hour ++ ":" ++ pad2 t.minute ++ ":" ++ pad2 t.second

/-- `formatTimeHeader` from `log_utils.go` lines 10-16: returns the bracketed
header (date-time dot microseconds, where `us = Nanosecond / 1000` and
`strconv.Itoa` renders it unpadded), the day of month from `when.Date()`,
and the error value, which is always `nil`. -/
def formatTimeHeader (when : GoTime) : String × Nat × Option String :=
  ("[" ++ goDateTime when ++ "." ++ toString (when.nanosecond / 1000) ++ "]",
   when.day, none)

/-- The header shape exactly as the specification describes it:
`[YYYY-MM-DD HH:MM:SS.microseconds]` with the fractional field equal to the
timestamp's sub-second value in microseconds. -/
def headerSpecForm (t : GoTime) : String :=
  "[" ++ pad4 t.year ++ "-" ++ pad2 t.month ++ "-" ++ pad2 t.day ++ " " ++
    pad2 t.hour ++ ":" ++ pad2 t.minute ++ ":" ++ pad2 t.second ++ "." ++
    toString (t.nanosecond / 1000) ++ "]"

/-- Constants from `part_000` lines 18-24. -/
def MB : Int := 1024 * 1024

/-- Seconds in one day (`ONE_DAY_SECONDS = 60 * 60 * 24`). -/
def ONE_DAY_SECONDS : Int := 60 * 60 * 24

/-- The rotated-file timestamp layout (`LOG_PATTERN`). -/
def LOG_PATTERN : String := "2006-01-02-15-04-05"

/-- `fileLogWriter` state, from `part_000` lines 26-63.  The `os.File`
handle itself is kept outside this record (as an explicit `List Char` file
content where needed); `Perm` is the permission bits. -/
structure FileLogWriter where
  Filename : String
  MaxLines : Int
  maxLinesCurLines : Int
  MaxSize : Int
  maxSizeCurSize : Int
  Daily : Bool
  MaxDays : Int
  dailyOpenDate : Nat
  Rotate : Bool
  LogLevel : String
  Level : Nat
  Perm : Nat
  fileNameOnly : String
  MaxTotalSize : Int
deriving DecidableEq

/-- Defaults from `newFileWriter`, `part_000` lines 66-80. -/
def newFileWriter : FileLogWriter :=
  { Filename := "", MaxLines := 1000000, maxLinesCurLines := 0,
    MaxSize := 256, maxSizeCurSize := 0, Daily := true, MaxDays := 7,
    dailyOpenDate := 0, Rotate := true, LogLevel := "", Level := DEBUG,
    Perm := 0o660, fileNameOnly := "", MaxTotalSize := 1024 }

/-- `needRotate` from `part_000` lines 126-131, verbatim: three ORed
triggers (line budget, byte budget including the incoming size, calendar
day change). -/
def needRotate (w : FileLogWriter) (size : Int) (day : Nat) : Bool :=
  (decide (w.MaxLines > 0) && decide (w.maxLinesCurLines >= w.MaxLines)) ||
  (decide (w.MaxSize > 0) && decide (w.maxSizeCurSize + size >= w.MaxSize)) ||
  (w.Daily && (day != w.dailyOpenDate))

/-- The message-formatting step of `fileLogWriter.WriteMsg`, `part_000`
lines 138-147: header, then - only when the sink's configured level is
DEBUG - a bracketed goroutine id (`getGID`, passed here as the `gid`
argument since it is read from the runtime stack), then the message and a
newline. -/
def formatMsgFile (w : FileLogWriter) (when : GoTime) (gid msg : String) : String :=
  if w.Level = DEBUG then
    (formatTimeHeader when).1 ++ "[" ++ gid ++ "]" ++ msg ++ "\n"
  else
    (formatTimeHeader when).1 ++ msg ++ "\n"

/-- `initFd` from `part_000` lines 176-193: recompute `maxSizeCurSize` from
the file's size, record the current day of month, and recompute
`maxLinesCurLines` by scanning the file for newline bytes (`lines`,
lines 195-221, whose 32K-chunked scan totals to the newline count) - the
scan is only run when the file is non-empty, otherwise the counter stays 0. -/
def initFdModel (w : FileLogWriter) (content : List Char) (today : Nat) : FileLogWriter :=
  { w with maxSizeCurSize := (content.length : Int),
           dailyOpenDate := today,
           maxLinesCurLines :=
             if 0 < content.length then (List.count '\n' content : Int) else 0 }

/-- Result of one `fileLogWriter.WriteMsg` call: the returned error, whether
the message bytes were appended, whether rotation was attempted (i.e.
`doRotate` was entered), and the updated sink state and file content. -/
structure WriteMsgResult where
  err : Option String
  written : Bool
  rotateAttempted : Bool
  w : FileLogWriter
  file : List Char
deriving DecidableEq

/-- `fileLogWriter.WriteMsg` from `part_000` lines 134-169.  `gid` stands
for `getGID()`; `writeOk` is the oracle for the `fileWriter.Write` call
(counters are only bumped on success, line 163-166).  `errTime` is checked
as in line 139-141 (it is always `nil`).  The rotation double-check
(optimistic check, then re-check under the lock) collapses sequentially to
a single check; `doRotate` (lines 224-253) is taken on its success path:
rename the file away and reopen a fresh empty file, re-deriving counters
exactly as `initFd` does. -/
def fileWriteMsg (w : FileLogWriter) (file : List Char) (when : GoTime)
    (gid msg : String) (level : Nat) (writeOk : Bool) : WriteMsgResult :=
  if level < w.Level then ⟨none, false, false, w, file⟩
  else if ((formatTimeHeader when).2.2).isSome then
    ⟨(formatTimeHeader when).2.2, false, false, w, file⟩
  else
    let m := formatMsgFile w when gid msg
    let d := (formatTimeHeader when).2.1
    let rot := w.Rotate && needRotate w (m.length : Int) d
    let w1 := if rot then initFdModel w [] d else w
    let f1 := if rot then ([] : List Char) else file
    if writeOk then
      ⟨none, true, rot,
       { w1 with maxLinesCurLines := w1.maxLinesCurLines + 1,
                 maxSizeCurSize := w1.maxSizeCurSize + (m.length : Int) },
       f1 ++ m.data⟩
    else ⟨some "write error", false, rot, w1, f1⟩

/-- What one public logging call observes: whether the file sink appended
the record, the sink's `WriteMsg` return value (reported to stderr by
`writeToLoggers`, never raised), and the error surfaced to the caller. -/
structure CallResult where
  sinkWritten : Bool
  sinkErr : Option String
  callerErr : Option String
deriving DecidableEq

/-- The dispatcher path of one leveled call with a file sink attached:
the level guard of `Logger.Debug/Info/Warn/Error/Fatal` (`log.go`
lines 304-342, `if LEVEL < log.level return`), then `writeMsg` /
`writeToLoggers` (lines 191-221) invoking the sink's `WriteMsg`;
`writeToLoggers` prints a sink error to stderr and continues, and
`writeMsg` always returns `nil`, so the caller never sees an error.
The call-site file:line tag (lines 202-210) only rewrites the message
text and is omitted. -/
def logCall (T : Nat) (w : FileLogWriter) (file : List Char) (when : GoTime)
    (gid msg : String) (level : Nat) (writeOk : Bool) : CallResult :=
  if level < T then ⟨false, none, none⟩
  else
    let r := fileWriteMsg w file when gid msg level writeOk
    ⟨r.written, r.err, none⟩

/-- `Logger.Debug`, `log.go` lines 304-310. -/
def loggerDebug (T : Nat) (w : FileLogWriter) (file : List Char) (when : GoTime)
    (gid msg : String) (writeOk : Bool) : CallResult :=
  logCall T w file when gid ("[DEBUG] " ++ msg) DEBUG writeOk

/-- `Logger.Info`, `log.go` lines 312-318. -/
def loggerInfo (T : Nat) (w : FileLogWriter) (file : List Char) (when : GoTime)
    (gid msg : String) (writeOk : Bool) : CallResult :=
  logCall T w file when gid ("[INFO] " ++ msg) INFO writeOk

/-- `Logger.Warn`, `log.go` lines 320-326. -/
def loggerWarn (T : Nat) (w : FileLogWriter) (file : List Char) (when : GoTime)
    (gid msg : String) (writeOk : Bool) : CallResult :=
  logCall T w file when gid ("[WARN] " ++ msg) WARN writeOk

/-- `Logger.Error`, `log.go` lines 328-334. -/
def loggerError (T : Nat) (w : FileLogWriter) (file : List Char) (when : GoTime)
    (gid msg : String) (writeOk : Bool) : CallResult :=
  logCall T w file when gid ("[ERROR] " ++ msg) ERROR writeOk

/-- `Logger.Fatal`, `log.go` lines 336-342. -/
def loggerFatal (T : Nat) (w : FileLogWriter) (file : List Char) (when : GoTime)
    (gid msg : String) (writeOk : Bool) : CallResult :=
  logCall T w file when gid ("[FATAL] " ++ msg) FATAL writeOk

/-- The OS-call outcomes `compressFile` (`part_000` lines 261-285) depends
on: whether `os.Open (source)` succeeds, whether `os.Create (target)`
succeeds, and whether `io.Copy` succeeds. -/
structure CompressEnv where
  openOk : Bool
  createOk : Bool
  copyOk : Bool
deriving DecidableEq

/-- Outcome of `compressFile`: its returned error, whether the source
`.log` file was removed, and whether the target `.zip` file was created. -/
structure CompressResult where
  err : Option String
  sourceRemoved : Bool
  targetCreated : Bool
deriving DecidableEq

/-- `fileLogWriter.compressFile` from `part_000` lines 261-285.  After
`os.Open (source)` succeeds, a `defer` closes the reader and then runs
`os.Remove (source)`; that deferred removal executes on every subsequent
return path - including the `os.Create` failure return and an `io.Copy`
failure - so `sourceRemoved` is true on each branch past the open. -/
def compressFile (env : CompressEnv) : CompressResult :=
  if !env.openOk then ⟨some "open source error", false, false⟩
  else if !env.createOk then ⟨some "create target error", true, false⟩
  else if !env.copyOk then ⟨some "copy error", true, true⟩
  else ⟨none, true, true⟩

/-- One directory entry seen by `filepath.Walk` in `deleteOldLog`
(`part_000` lines 287-333): its base name, whether it is a directory, its
modification time as Unix seconds (`ModTime().Unix()`), its size, and its
modification-time key `ModTime().Format (LOG_PATTERN)`. -/
structure FileEntry where
  name : String
  isDir : Bool
  modTime : Int
  size : Int
  timeKey : String
deriving DecidableEq

/-- Go `strings.HasPrefix` applied to `filepath.Base (path)`: the entry's
base name starts with the sink's `fileNameOnly` stem. -/
def hasPre (s p : String) : Bool := List.isPrefixOf p.data s.data

/-- Go map assignment `fileTimeMap[k] = v` (overwrite on an existing key),
on an association-list model of the map. -/
def mapInsert : List (String × FileEntry) → String → FileEntry → List (String × FileEntry)
  | [], k, v => [(k, v)]
  | (k0, v0) :: rest, k, v =>
      if k0 = k then (k, v) :: rest else (k0, v0) :: mapInsert rest k v

/-- Go map read `fileTimeMap[k]`. -/
def mapGet : List (String × FileEntry) → String → Option FileEntry
  | [], _ => none
  | (k0, v0) :: rest, k => if k0 = k then some v0 else mapGet rest k

/-- The entry stored under key `k`; in `deleteOldLog` every key in
`timeKeys` was previously inserted, so the default is never read. -/
def entryOf (m : List (String × FileEntry)) (k : String) : FileEntry :=
  (mapGet m k).getD ⟨"", false, 0, 0, ""⟩

/-- Accumulator of the `filepath.Walk` closure in `deleteOldLog`:
names removed by the age rule (in walk order), the `fileTimeMap`, the
`timeKeys` list, and the running `totalSize`. -/
structure WalkState where
  ageDeleted : List String
  fileTimeMap : List (String × FileEntry)
  timeKeys : List String
  totalSize : Int
deriving DecidableEq

/-- The empty initial accumulator (`part_000` lines 289-291). -/
def walkInit : WalkState := ⟨[], [], [], 0⟩

/-- One step of the walk closure (`part_000` lines 292-318): skip
directories; skip names without the sink's base-name stem; remove files
whose modification time is strictly older than `now - ONE_DAY_SECONDS *
MaxDays`; otherwise record the file under its time key and add its size
to the running total. -/
def walkStep (w : FileLogWriter) (now : Int) (s : WalkState) (e : FileEntry) : WalkState :=
  if e.isDir then s
  else if !(hasPre e.name w.fileNameOnly) then s
  else if e.modTime < now - ONE_DAY_SECONDS * w.MaxDays then
    { s with ageDeleted := s.ageDeleted ++ [e.name] }
  else
    { s with fileTimeMap := mapInsert s.fileTimeMap e.timeKey e,
             timeKeys := s.timeKeys ++ [e.timeKey],
             totalSize := s.totalSize + e.size }

/-- The whole walk over the directory listing, in walk order. -/
def walk (w : FileLogWriter) (now : Int) : List FileEntry → WalkState → WalkState
  | [], s => s
  | e :: rest, s => walk w now rest (walkStep w now s e)

/-- The size-budget loop of `deleteOldLog` (`part_000` lines 324-332):
iterate over the sorted time keys; break once the accumulated deleted
size strictly exceeds `excess = totalSize - MaxTotalSize`; otherwise
delete the file stored under the key and add its size.  Returns the
deleted names in deletion order. -/
def sizePhase (m : List (String × FileEntry)) (excess : Int) :
    List String → Int → List String
  | [], _ => []
  | k :: rest, delSize =>
      if delSize > excess then []
      else (entryOf m k).name :: sizePhase m excess rest (delSize + (entryOf m k).size)

/-- Lexicographic comparison of character lists by code point, the order
`sort.Strings` uses (the time keys are ASCII, where byte order and rune
order agree). -/
def listLe : List Char → List Char → Bool
  | [], _ => true
  | _ :: _, [] => false
  | a :: as, b :: bs =>
      if a.toNat < b.toNat then true
      else if b.toNat < a.toNat then false
      else listLe as bs

/-- String comparison for `sort.Strings`. -/
def keyLe (a b : String) : Bool := listLe a.data b.data

/-- Names deleted by `deleteOldLog`, split into the age rule's removals and
the size rule's removals. -/
structure RetentionResult where
  ageDeleted : List String
  sizeDeleted : List String
deriving DecidableEq

/-- `fileLogWriter.deleteOldLog` from `part_000` lines 287-333: walk the
directory, then - only if `totalSize - MaxTotalSize > 0` - sort the time
keys ascending (`sort.Strings`; any duplicate keys are identical strings,
so insertion sort yields the same list) and run the size-budget loop. -/
def deleteOldLog (w : FileLogWriter) (now : Int) (entries : List FileEntry) :
    RetentionResult :=
  let s := walk w now entries walkInit
  if s.totalSize - w.MaxTotalSize ≤ 0 then ⟨s.ageDeleted, []⟩
  else
    ⟨s.ageDeleted,
     sizePhase s.fileTimeMap (s.totalSize - w.MaxTotalSize)
       (List.insertionSort (fun a b => keyLe a b = true) s.timeKeys) 0⟩

/-- Sum of the sizes stored under the first `i` keys - the accumulated
deleted size after the size-budget loop has handled `i` keys. -/
def sumTake (m : List (String × FileEntry)) (ks : List String) (i : Nat) : Int :=
  ((ks.take i).map (fun k => (entryOf m k).size)).sum

/-- The age rule as the specification states it: a non-directory entry
whose base name carries the sink's stem and whose modification time is
strictly older than `now` minus `MaxDays` whole days. -/
def ageCond (w : FileLogWriter) (now : Int) (e : FileEntry) : Bool :=
  !e.isDir && hasPre e.name w.fileNameOnly &&
    decide (e.modTime < now - ONE_DAY_SECONDS * w.MaxDays)

/-- An age-surviving matching file: counted into the walk's `totalSize`. -/
def keepCond (w : FileLogWriter) (now : Int) (e : FileEntry) : Bool :=
  !e.isDir && hasPre e.name w.fileNameOnly &&
    !(decide (e.modTime < now - ONE_DAY_SECONDS * w.MaxDays))

/-- The sorted time-key list the size-budget loop iterates over. -/
def retKeys (w : FileLogWriter) (now : Int) (entries : List FileEntry) : List String :=
  List.insertionSort (fun a b => keyLe a b = true) (walk w now entries walkInit).timeKeys

/-- The `fileTimeMap` after the walk. -/
def retMap (w : FileLogWriter) (now : Int) (entries : List FileEntry) :
    List (String × FileEntry) :=
  (walk w now entries walkInit).fileTimeMap

/-- `totalSize - MaxTotalSize`: the amount the size-budget loop must free. -/
def retExcess (w : FileLogWriter) (now : Int) (entries : List FileEntry) : Int :=
  (walk w now entries walkInit).totalSize - w.MaxTotalSize

/-- Outcome of `Register` (`log.go` lines 72-82): a nil factory panics, a
duplicate name prints a warning and returns, otherwise the factory is
stored. -/
inductive RegisterOutcome where
  | panicked (msg : String)
  | warned
  | added
deriving DecidableEq

/-- `Register` from `log.go` lines 72-82, over an association-list model of
the `adapters` map; a factory value is `Option Nat` with `none` standing
for a nil `loggerType`.  The nil check runs before the duplicate check. -/
def Register (adapters : List (String × Nat)) (name : String) (log : Option Nat) :
    RegisterOutcome × List (String × Nat) :=
  match log with
  | none => (RegisterOutcome.panicked ("logs:Register is nil, name:" ++ name), adapters)
  | some f =>
      if (adapters.lookup name).isSome then (RegisterOutcome.warned, adapters)
      else (RegisterOutcome.added, adapters ++ [(name, f)])

/-- One attached sink as the dispatcher sees it: its registered name and
the value its `WriteMsg` returns for the record at hand (`none` = nil). -/
structure SinkStub where
  name : String
  writeResult : Option String
deriving DecidableEq

/-- `Logger.writeToLoggers` from `log.go` lines 191-198: invoke every
sink's `WriteMsg` in registration order; a non-nil error is printed to
stderr and the loop continues.  Returns the names written to, in order,
and the stderr reports, in order. -/
def writeToLoggers : List SinkStub → List String × List String
  | [] => ([], [])
  | l :: rest =>
      let r := writeToLoggers rest
      match l.writeResult with
      | some e =>
          (l.name :: r.1,
           ("unable to WriteMsg to adapter:" ++ l.name ++ ",error:" ++ e) :: r.2)
      | none => (l.name :: r.1, r.2)

/-- What one synchronous dispatch observes. -/
structure SyncWriteResult where
  delivered : List String
  stderrReports : List String
  err : Option String
deriving DecidableEq

/-- The synchronous delivery path: the per-method level guard (`log.go`
lines 304-342) followed by `writeMsg` (lines 200-221), which in
synchronous mode calls `writeToLoggers` and returns `nil`. -/
def syncWriteMsg (T : Nat) (outputs : List SinkStub) (level : Nat) : SyncWriteResult :=
  if level < T then ⟨[], [], none⟩
  else
    let r := writeToLoggers outputs
    ⟨r.1, r.2, none⟩

/-- The counter/file state of the open handle: `maxSizeCurSize`,
`maxLinesCurLines`, and the content of the currently open file. -/
structure SinkFileState where
  curBytes : Nat
  curLines : Nat
  content : List Char
deriving DecidableEq

/-- The counters `initFd` derives on (re)open (`part_000` lines 176-193):
bytes from the file's size, lines by scanning the content for newline
bytes when the file is non-empty. -/
def openCounters (c : List Char) : SinkFileState :=
  ⟨c.length, if 0 < c.length then List.count '\n' c else 0, c⟩

/-- An operation on the open handle: (re)opening a file with the given
content (`startLogger` / `initFd`), or one `fileWriter.Write` of a
formatted message which succeeded or failed (`part_000` lines 161-168:
on success the line counter gains 1 and the byte counter gains the
message length). -/
inductive SinkOp where
  | openf (content : List Char)
  | write (m : List Char) (ok : Bool)
deriving DecidableEq

/-- Apply one operation to the handle state. -/
def applyOp (s : SinkFileState) : SinkOp → SinkFileState
  | SinkOp.openf c => openCounters c
  | SinkOp.write m ok =>
      if ok then ⟨s.curBytes + m.length, s.curLines + 1, s.content ++ m⟩ else s

/-- Run a sequence of handle operations. -/
def runOps (s : SinkFileState) : List SinkOp → SinkFileState
  | [] => s
  | op :: rest => runOps (applyOp s op) rest

/-- Every write in the operation list carries exactly one newline - the
one `WriteMsg` appends - i.e. no message has an embedded newline. -/
def singleNL : List SinkOp → Bool
  | [] => true
  | SinkOp.openf _ :: rest => singleNL rest
  | SinkOp.write m _ :: rest => (List.count '\n' m == 1) && singleNL rest

/-- The `Init` path of the file sink that the log level takes (`part_000`
lines 93-101): fail when `filename` is empty, otherwise set the level with
`transLogLevel` - any string is accepted - and return `startLogger`'s
outcome (`startOk` is the oracle for the file open). -/
def fileInitLevel (filename logLevel : String) (startOk : Bool) : Except String Nat :=
  if filename.length = 0 then Except.error "jsonconfig must have filename"
  else if startOk then Except.ok (transLogLevel logLevel)
  else Except.error "startLogger failed"

/-- The retention example of the specification: sink with stem `test`,
7-day age limit, 10 MB total budget (post-`Init` byte units). -/
def retW : FileLogWriter :=
  { newFileWriter with
    Filename := "test.log"
    fileNameOnly := "test"
    MaxDays := 7
    MaxTotalSize := 10 * MB }

/-- A fixed "now" for the retention example. -/
def retNow : Int := 1700000000

/-- The example directory: A (oldest, 5 MB), B (7 MB), C (newest, 3 MB),
none older than the age limit. -/
def retEntries : List FileEntry :=
  [⟨"test.2024-01-01-00-00-00.log", false, retNow - 300, 5 * MB, "2024-01-01-00-00-00"⟩,
   ⟨"test.2024-01-02-00-00-00.log", false, retNow - 200, 7 * MB, "2024-01-02-00-00-00"⟩,
   ⟨"test.2024-01-03-00-00-00.log", false, retNow - 100, 3 * MB, "2024-01-03-00-00-00"⟩]

/-- A sink configured at INFO (so `WriteMsg` takes the no-goroutine-tag
branch), used for the counter-invariant counterexample. -/
def c4w : FileLogWriter := { newFileWriter with Level := INFO }

/-- The formatted message `WriteMsg` produces at INFO level for the
caller-supplied text `ab\ncd` - it carries an embedded newline plus the
appended one. -/
def c4msg : List Char :=
  (formatMsgFile c4w ⟨2024, 5, 6, 7, 8, 9, 123456789⟩ "7" "ab\ncd").data

/-- A sink state whose line budget is exhausted, used to exhibit a
rotation trigger. -/
def rotW : FileLogWriter :=
  { newFileWriter with
    MaxLines := 3
    maxLinesCurLines := 5
    Daily := false
    MaxSize := 256 * MB }

/- ------------------------------------------------------------------ -/
/- Theorems -/
/- ------------------------------------------------------------------ -/

/-- C2, counterexample: with `os.Open (source)` succeeding and
`os.Create (target)` failing, `compressFile` returns the create error and
yet the source `.log` file has been removed (by the deferred
`os.Remove (source)` of `part_000` lines 266-270), and no `.zip` was
created - refuting "if creating the target file or copying the data
fails, the source `.log` file is not removed". -/
theorem claim_C2_compress_cex :
    (compressFile ⟨true, false, true⟩).err = some "create target error" ∧
    (compressFile ⟨true, false, true⟩).sourceRemoved = true ∧
    (compressFile ⟨true, false, true⟩).targetCreated = false := by decide

/-- C2, amended: `compressFile` removes the source `.log` file exactly
when opening the source succeeded - regardless of whether creating the
target or copying failed - and returns no error exactly when all three
steps succeeded. -/
theorem claim_C2_compress_amended (env : CompressEnv) :
    (compressFile env).sourceRemoved = env.openOk ∧
    ((compressFile env).err = none ↔
      env.openOk = true ∧ env.createOk = true ∧ env.copyOk = true) := by
  obtain ⟨o, c, p⟩ := env
  cases o <;> cases c <;> cases p <;> simp [compressFile]

/-- C2, amended, witness at the all-success environment. -/
theorem claim_C2_compress_amended_witness :
    (compressFile ⟨true, true, true⟩).sourceRemoved = true ∧
    (compressFile ⟨true, true, true⟩).err = none :=
  ⟨(claim_C2_compress_amended ⟨true, true, true⟩).1,
   (claim_C2_compress_amended ⟨true, true, true⟩).2.mpr ⟨rfl, rfl, rfl⟩⟩

/-- C8: the header `formatTimeHeader` builds has exactly the shape
`[YYYY-MM-DD HH:MM:SS.microseconds]` described by the specification, with
the fractional field the sub-second value in microseconds
(`Nanosecond / 1000`); its error result is always `nil`; and the file
sink's formatted message carries the bracketed goroutine tag directly
after the header exactly when the sink's configured level is DEBUG. -/
theorem claim_C8_header_format (t : GoTime) (w : FileLogWriter) (gid msg : String) :
    (formatTimeHeader t).1 = headerSpecForm t
  ∧ (formatTimeHeader t).2.2 = none
  ∧ (formatMsgFile w t gid msg =
       (formatTimeHeader t).1 ++ "[" ++ gid ++ "]" ++ msg ++ "\n" ↔ w.Level = DEBUG) := by
  refine ⟨?_, rfl, ?_, ?_⟩
  · simp [formatTimeHeader, headerSpecForm, goDateTime, String.append_assoc]
  · intro heq
    by_cases hl : w.Level = DEBUG
    · exact hl
    · exfalso
      simp only [formatMsgFile, if_neg hl] at heq
      have hlen := congrArg String.length heq
      have e1 : ("[" : String).length = 1 := rfl
      have e2 : ("]" : String).length = 1 := rfl
      have e3 : ("\n" : String).length = 1 := rfl
      simp only [String.length_append] at hlen
      omega
  · intro hl
    simp [formatMsgFile, hl]

/-- C8, witness: at a DEBUG-level sink the formatted message is the
header, the bracketed goroutine id, the message, and a newline. -/
theorem claim_C8_header_format_witness :
    formatMsgFile newFileWriter ⟨2024, 1, 2, 3, 4, 5, 123456789⟩ "7" "hello" =
      (formatTimeHeader ⟨2024, 1, 2, 3, 4, 5, 123456789⟩).1 ++ "[" ++ "7" ++ "]" ++
        "hello" ++ "\n" :=
  (claim_C8_header_format ⟨2024, 1, 2, 3, 4, 5, 123456789⟩ newFileWriter "7" "hello").2.2.mpr rfl

/-- C9: `Register` with a nil factory panics for every name and every
registry state - including names already registered, since the nil check
(`log.go` line 73) precedes the duplicate check (line 77) - and leaves the
registry unchanged; a panic happens exactly when the factory is nil; and
registering a duplicate name with a non-nil factory merely warns and
leaves the existing registry (hence the existing factory) in place. -/
theorem claim_C9_register_nil (adapters : List (String × Nat)) (name : String) :
    ((Register adapters name none).1 =
        RegisterOutcome.panicked ("logs:Register is nil, name:" ++ name))
  ∧ ((Register adapters name none).2 = adapters)
  ∧ (∀ lg, (∃ m, (Register adapters name lg).1 = RegisterOutcome.panicked m) ↔ lg = none)
  ∧ (∀ f f0, adapters.lookup name = some f0 →
        Register adapters name (some f) = (RegisterOutcome.warned, adapters)) := by
  refine ⟨rfl, rfl, ?_, ?_⟩
  · intro lg
    cases lg with
    | none => simp [Register]
    | some f =>
        simp only [Register]
        split <;> simp
  · intro f f0 h
    simp [Register, h]

/-- C9, witness: registering the name `file` twice with non-nil factories
warns and keeps the first factory; registering nil under the taken name
`file` still panics. -/
theorem claim_C9_register_nil_witness :
    Register [("file", 1)] "file" (some 2) = (RegisterOutcome.warned, [("file", 1)]) ∧
    (Register [("file", 1)] "file" none).1 =
      RegisterOutcome.panicked ("logs:Register is nil, name:" ++ "file") :=
  ⟨(claim_C9_register_nil [("file", 1)] "file").2.2.2 2 1 rfl,
   (claim_C9_register_nil [("file", 1)] "file").1⟩

/-- C10: `transLogLevel` maps the five level names to their ordinals and
every other string - the empty string included - to DEBUG; consequently
the file sink's `Init` never fails because of the `logLevel` field: with a
non-empty filename and a successful file open it succeeds with level
`transLogLevel logLevel`. -/
theorem claim_C10_level_names :
    transLogLevel "DEBUG" = 0 ∧ transLogLevel "INFO" = 1 ∧ transLogLevel "WARN" = 2 ∧
    transLogLevel "ERROR" = 3 ∧ transLogLevel "FATAL" = 4 ∧ transLogLevel "" = DEBUG ∧
    (∀ s, s ≠ "DEBUG" → s ≠ "INFO" → s ≠ "WARN" → s ≠ "ERROR" → s ≠ "FATAL" →
      transLogLevel s = DEBUG) ∧
    (∀ fn lvl, fn.length ≠ 0 →
      fileInitLevel fn lvl true = Except.ok (transLogLevel lvl)) := by
  refine ⟨by decide, by decide, by decide, by decide, by decide, by decide, ?_, ?_⟩
  · intro s h1 h2 h3 h4 h5
    simp [transLogLevel, h1, h2, h3, h4, h5, DEBUG]
  · intro fn lvl h
    simp [fileInitLevel, h]

/-- C10, witness: a sink configured with the misspelled level `VERBOSE`
initializes successfully and runs at DEBUG, the most verbose level. -/
theorem claim_C10_level_names_witness :
    fileInitLevel "test.log" "VERBOSE" true = Except.ok 0 :=
  (claim_C10_level_names.2.2.2.2.2.2.2 "test.log" "VERBOSE" (by decide)).trans rfl

/-- When the write succeeds, the record reaches the file exactly when the
level passes both the dispatcher's guard and the sink's guard. -/
lemma logCall_written_iff (T : Nat) (w : FileLogWriter) (file : List Char)
    (t : GoTime) (gid msg : String) (lvl : Nat) :
    (logCall T w file t gid msg lvl true).sinkWritten = true ↔
      T ≤ lvl ∧ w.Level ≤ lvl := by
  by_cases h1 : lvl < T
  · simp [logCall, h1]
  · by_cases h2 : lvl < w.Level
    · simp [logCall, fileWriteMsg, h1, h2, formatTimeHeader]
    · simp [logCall, fileWriteMsg, h1, h2, formatTimeHeader]
      all_goals omega

/-- A record below either threshold is dropped silently: nothing reaches
the file, the sink returns `nil`, and the caller sees no error. -/
lemma logCall_filtered (T : Nat) (w : FileLogWriter) (file : List Char)
    (t : GoTime) (gid msg : String) (lvl : Nat) (ok : Bool)
    (h : lvl < T ∨ lvl < w.Level) :
    (logCall T w file t gid msg lvl ok).sinkWritten = false ∧
    (logCall T w file t gid msg lvl ok).sinkErr = none ∧
    (logCall T w file t gid msg lvl ok).callerErr = none := by
  by_cases h1 : lvl < T
  · simp [logCall, h1]
  · have h2 : lvl < w.Level := h.resolve_left h1
    simp [logCall, fileWriteMsg, h1, h2]

/-- C1: for every dispatcher threshold `T`, each of the five public calls
writes through the file sink (write success assumed) iff its level is at
least `T` and at least the sink's own level; below either threshold
nothing is written, the sink returns `nil`, and no error reaches the
caller. -/
theorem claim_C1_level_filtering (T : Nat) (w : FileLogWriter) (file : List Char)
    (t : GoTime) (gid msg : String) (ok : Bool) :
    (((loggerDebug T w file t gid msg true).sinkWritten = true) ↔ (T ≤ DEBUG ∧ w.Level ≤ DEBUG))
  ∧ (((loggerInfo T w file t gid msg true).sinkWritten = true) ↔ (T ≤ INFO ∧ w.Level ≤ INFO))
  ∧ (((loggerWarn T w file t gid msg true).sinkWritten = true) ↔ (T ≤ WARN ∧ w.Level ≤ WARN))
  ∧ (((loggerError T w file t gid msg true).sinkWritten = true) ↔ (T ≤ ERROR ∧ w.Level ≤ ERROR))
  ∧ (((loggerFatal T w file t gid msg true).sinkWritten = true) ↔ (T ≤ FATAL ∧ w.Level ≤ FATAL))
  ∧ (DEBUG < T ∨ DEBUG < w.Level →
      (loggerDebug T w file t gid msg ok).sinkWritten = false ∧
      (loggerDebug T w file t gid msg ok).sinkErr = none ∧
      (loggerDebug T w file t gid msg ok).callerErr = none)
  ∧ (INFO < T ∨ INFO < w.Level →
      (loggerInfo T w file t gid msg ok).sinkWritten = false ∧
      (loggerInfo T w file t gid msg ok).sinkErr = none ∧
      (loggerInfo T w file t gid msg ok).callerErr = none)
  ∧ (WARN < T ∨ WARN < w.Level →
      (loggerWarn T w file t gid msg ok).sinkWritten = false ∧
      (loggerWarn T w file t gid msg ok).sinkErr = none ∧
      (loggerWarn T w file t gid msg ok).callerErr = none)
  ∧ (ERROR < T ∨ ERROR < w.Level →
      (loggerError T w file t gid msg ok).sinkWritten = false ∧
      (loggerError T w file t gid msg ok).sinkErr = none ∧
      (loggerError T w file t gid msg ok).callerErr = none)
  ∧ (FATAL < T ∨ FATAL < w.Level →
      (loggerFatal T w file t gid msg ok).sinkWritten = false ∧
      (loggerFatal T w file t gid msg ok).sinkErr = none ∧
      (loggerFatal T w file t gid msg ok).callerErr = none) := by
  refine ⟨?_, ?_, ?_, ?_, ?_, ?_, ?_, ?_, ?_, ?_⟩
  · exact logCall_written_iff T w file t gid ("[DEBUG] " ++ msg) DEBUG
  · exact logCall_written_iff T w file t gid ("[INFO] " ++ msg) INFO
  · exact logCall_written_iff T w file t gid ("[WARN] " ++ msg) WARN
  · exact logCall_written_iff T w file t gid ("[ERROR] " ++ msg) ERROR
  · exact logCall_written_iff T w file t gid ("[FATAL] " ++ msg) FATAL
  · exact fun h => logCall_filtered T w file t gid ("[DEBUG] " ++ msg) DEBUG ok h
  · exact fun h => logCall_filtered T w file t gid ("[INFO] " ++ msg) INFO ok h
  · exact fun h => logCall_filtered T w file t gid ("[WARN] " ++ msg) WARN ok h
  · exact fun h => logCall_filtered T w file t gid ("[ERROR] " ++ msg) ERROR ok h
  · exact fun h => logCall_filtered T w file t gid ("[FATAL] " ++ msg) FATAL ok h

/-- C1, witness: with the dispatcher at WARN and the sink at DEBUG, a
Debug call writes nothing and returns no error, while an Error call is
written through. -/
theorem claim_C1_level_filtering_witness :
    ((loggerDebug WARN newFileWriter [] ⟨2024, 1, 2, 3, 4, 5, 6⟩ "7" "m" true).sinkWritten = false)
  ∧ ((loggerError WARN newFileWriter [] ⟨2024, 1, 2, 3, 4, 5, 6⟩ "7" "m" true).sinkWritten = true) :=
  ⟨((claim_C1_level_filtering WARN newFileWriter [] ⟨2024, 1, 2, 3, 4, 5, 6⟩ "7" "m"
      true).2.2.2.2.2.1 (Or.inl (by decide))).1,
   (claim_C1_level_filtering WARN newFileWriter [] ⟨2024, 1, 2, 3, 4, 5, 6⟩ "7" "m"
      true).2.2.2.1.mpr (by decide)⟩

/-- C5: on a write that passes the sink's level guard, rotation is
attempted exactly when the rotate flag is set and at least one of the
three ORed triggers holds - line budget reached, byte budget reached
counting the incoming formatted message, or the record's calendar day
differs from the day the file was opened; a record filtered by level
never attempts rotation. -/
theorem claim_C5_rotation_triggers (w : FileLogWriter) (file : List Char)
    (t : GoTime) (gid msg : String) (lvl : Nat) (ok : Bool) :
    (w.Level ≤ lvl →
      ((fileWriteMsg w file t gid msg lvl ok).rotateAttempted = true ↔
        (w.Rotate = true ∧
          ((0 < w.MaxLines ∧ w.MaxLines ≤ w.maxLinesCurLines) ∨
           (0 < w.MaxSize ∧
             w.MaxSize ≤ w.maxSizeCurSize + ((formatMsgFile w t gid msg).length : Int)) ∨
           (w.Daily = true ∧ t.day ≠ w.dailyOpenDate)))))
  ∧ (lvl < w.Level → (fileWriteMsg w file t gid msg lvl ok).rotateAttempted = false) := by
  constructor
  · intro h
    have h1 : ¬ lvl < w.Level := not_lt.mpr h
    cases ok <;>
      simp [fileWriteMsg, h1, formatTimeHeader, needRotate, Bool.and_eq_true,
        Bool.or_eq_true, decide_eq_true_iff, bne_iff_ne, and_assoc, or_assoc]
  · intro h
    simp [fileWriteMsg, h]

/-- C5, witness: a rotate-enabled sink whose line counter (5) has passed
its line budget (3) attempts rotation on the next passing write; with the
rotate flag cleared the same state does not. -/
theorem claim_C5_rotation_triggers_witness :
    (fileWriteMsg rotW [] ⟨2024, 1, 2, 3, 4, 5, 6⟩ "7" "m" INFO true).rotateAttempted = true ∧
    (fileWriteMsg { rotW with Rotate := false } [] ⟨2024, 1, 2, 3, 4, 5, 6⟩ "7" "m" INFO
        true).rotateAttempted = false :=
  ⟨((claim_C5_rotation_triggers rotW [] ⟨2024, 1, 2, 3, 4, 5, 6⟩ "7" "m" INFO true).1
      (by decide)).mpr ⟨rfl, Or.inl ⟨by decide, by decide⟩⟩,
   by
    have h := ((claim_C5_rotation_triggers { rotW with Rotate := false } []
      ⟨2024, 1, 2, 3, 4, 5, 6⟩ "7" "m" INFO true).1 (by decide))
    by_contra hb
    have : ({ rotW with Rotate := false } : FileLogWriter).Rotate = true := (h.mp (by simpa using hb)).1
    simp at this⟩

/-- `writeToLoggers` reaches every sink in registration order and reports
exactly the failing sinks' errors to stderr, in order. -/
lemma writeToLoggers_spec (outputs : List SinkStub) :
    (writeToLoggers outputs).1 = outputs.map SinkStub.name ∧
    (writeToLoggers outputs).2 =
      (outputs.filter (fun l => l.writeResult.isSome)).map
        (fun l => "unable to WriteMsg to adapter:" ++ l.name ++ ",error:" ++
          l.writeResult.getD "") := by
  induction outputs with
  | nil => exact ⟨rfl, rfl⟩
  | cons l rest ih =>
      cases hr : l.writeResult with
      | none => simp [writeToLoggers, hr, ih.1, ih.2]
      | some e => simp [writeToLoggers, hr, ih.1, ih.2]

/-- C7: a record at or above the dispatcher threshold is delivered
synchronously to every attached sink in registration order, sink write
errors only produce stderr reports (one per failing sink, in order), and
the logging call returns no error. -/
theorem claim_C7_sync_fanout (T : Nat) (outputs : List SinkStub) (lvl : Nat)
    (h : T ≤ lvl) :
    (syncWriteMsg T outputs lvl).delivered = outputs.map SinkStub.name ∧
    (syncWriteMsg T outputs lvl).stderrReports =
      (outputs.filter (fun l => l.writeResult.isSome)).map
        (fun l => "unable to WriteMsg to adapter:" ++ l.name ++ ",error:" ++
          l.writeResult.getD "") ∧
    (syncWriteMsg T outputs lvl).err = none := by
  have h1 : ¬ lvl < T := not_lt.mpr h
  refine ⟨?_, ?_, ?_⟩ <;>
    simp [syncWriteMsg, h1, (writeToLoggers_spec outputs).1, (writeToLoggers_spec outputs).2]

/-- C7, witness: with a failing file sink ahead of a console sink, both
sinks are reached in order and the call reports no error. -/
theorem claim_C7_sync_fanout_witness :
    (syncWriteMsg 0 [⟨"file", some "disk full"⟩, ⟨"console", none⟩] 2).delivered =
      ["file", "console"] ∧
    (syncWriteMsg 0 [⟨"file", some "disk full"⟩, ⟨"console", none⟩] 2).err = none := by
  have h := claim_C7_sync_fanout 0 [⟨"file", some "disk full"⟩, ⟨"console", none⟩] 2
    (by decide)
  exact ⟨h.1.trans (by decide), h.2.2⟩

/-- The byte counter tracks the open file's length through any sequence of
reopens and writes. -/
lemma runOps_bytes (ops : List SinkOp) :
    ∀ s : SinkFileState, s.curBytes = s.content.length →
      (runOps s ops).curBytes = (runOps s ops).content.length := by
  induction ops with
  | nil => exact fun s h => h
  | cons op rest ih =>
      intro s h
      cases op with
      | openf c => exact ih _ rfl
      | write m ok =>
          cases ok with
          | false => exact ih _ h
          | true =>
              refine ih _ ?_
              simp [applyOp, h]

/-- When every written message carries exactly one newline, the line
counter tracks the open file's newline count. -/
lemma runOps_lines (ops : List SinkOp) :
    ∀ s : SinkFileState, singleNL ops = true →
      s.curLines = List.count '\n' s.content →
      (runOps s ops).curLines = List.count '\n' (runOps s ops).content := by
  induction ops with
  | nil => exact fun s _ h => h
  | cons op rest ih =>
      intro s hnl h
      cases op with
      | openf c =>
          refine ih _ (by simpa [singleNL] using hnl) ?_
          simp only [applyOp, openCounters]
          by_cases hc : 0 < c.length
          · simp [hc]
          · have hc0 : c = [] := List.length_eq_zero.mp (by omega)
            simp [hc0]
      | write m ok =>
          have hnl1 : List.count '\n' m = 1 ∧ singleNL rest = true := by
            simpa [singleNL, Bool.and_eq_true] using hnl
          cases ok with
          | false => exact ih _ hnl1.2 h
          | true =>
              refine ih _ hnl1.2 ?_
              simp [applyOp, h, List.count_append, hnl1.1]

/-- All operations on the open handle start from the counters `initFd`
derives, which satisfy both invariants. -/
lemma openCounters_inv (c : List Char) :
    (openCounters c).curBytes = (openCounters c).content.length ∧
    (openCounters c).curLines = List.count '\n' (openCounters c).content := by
  refine ⟨rfl, ?_⟩
  simp only [openCounters]
  by_cases hc : 0 < c.length
  · simp [hc]
  · have : c = [] := List.length_eq_zero.mp (by omega)
    simp [this]

/-- C4, amended: starting from the counters `initFd` derives on open, the
byte counter always equals the open file's byte count after any sequence
of reopens and writes, and the line counter equals the file's
newline-terminated line count provided every written formatted message
carries exactly one newline (the one `WriteMsg` appends); each successful
write adds exactly 1 to the line counter, not the message's newline count. -/
theorem claim_C4_counter_invariant (c0 : List Char) (ops : List SinkOp) :
    (runOps (openCounters c0) ops).curBytes =
      (runOps (openCounters c0) ops).content.length
  ∧ (singleNL ops = true →
      (runOps (openCounters c0) ops).curLines =
        List.count '\n' (runOps (openCounters c0) ops).content) :=
  ⟨runOps_bytes ops (openCounters c0) (openCounters_inv c0).1,
   fun hnl => runOps_lines ops (openCounters c0) hnl (openCounters_inv c0).2⟩

/-- C4, witness: opening an empty file and writing one single-newline
message leaves the line counter equal to the file's newline count. -/
theorem claim_C4_counter_invariant_witness :
    singleNL [SinkOp.write ['h', 'i', '\n'] true] = true ∧
    (runOps (openCounters []) [SinkOp.write ['h', 'i', '\n'] true]).curLines =
      List.count '\n' (runOps (openCounters []) [SinkOp.write ['h', 'i', '\n'] true]).content :=
  ⟨by decide, (claim_C4_counter_invariant [] [SinkOp.write ['h', 'i', '\n'] true]).2 (by decide)⟩

/-- C4, counterexample: writing the formatted message `WriteMsg` builds at
INFO level for the caller text `ab\ncd` - which carries an embedded
newline plus the appended one - bumps the line counter by 1 while the file
gains 2 newline-terminated lines, so the claimed invariant (line counter =
newline count of the open file after every operation) fails, as does "every
successful write adds the number of lines written to the line counter". -/
theorem claim_C4_counter_invariant_cex :
    (runOps (openCounters []) [SinkOp.write c4msg true]).curLines = 1 ∧
    List.count '\n' (runOps (openCounters []) [SinkOp.write c4msg true]).content = 2 ∧
    ¬ ((runOps (openCounters []) [SinkOp.write c4msg true]).curLines =
        List.count '\n' (runOps (openCounters []) [SinkOp.write c4msg true]).content) := by
  decide

/-- The code-point lexicographic order is total. -/
lemma listLe_total : ∀ as bs : List Char, listLe as bs = true ∨ listLe bs as = true := by
  intro as
  induction as with
  | nil => exact fun bs => Or.inl rfl
  | cons a as ih =>
      intro bs
      cases bs with
      | nil => exact Or.inr rfl
      | cons b bs =>
          by_cases h1 : a.toNat < b.toNat
          · exact Or.inl (by simp [listLe, h1])
          · by_cases h2 : b.toNat < a.toNat
            · exact Or.inr (by simp [listLe, h2])
            · rcases ih bs with h | h
              · exact Or.inl (by simp [listLe, h1, h2, h])
              · exact Or.inr (by simp [listLe, h1, h2, h])

/-- The code-point lexicographic order is transitive. -/
lemma listLe_trans : ∀ as bs cs : List Char,
    listLe as bs = true → listLe bs cs = true → listLe as cs = true := by
  intro as
  induction as with
  | nil => intro bs cs _ _; rfl
  | cons a as ih =>
      intro bs cs h1 h2
      cases bs with
      | nil => simp [listLe] at h1
      | cons b bs =>
          cases cs with
          | nil => simp [listLe] at h2
          | cons c cs =>
              simp only [listLe] at h1 h2 ⊢
              by_cases hab : a.toNat < b.toNat <;> by_cases hba : b.toNat < a.toNat <;>
                by_cases hbc : b.toNat < c.toNat <;> by_cases hcb : c.toNat < b.toNat <;>
                by_cases hac : a.toNat < c.toNat <;> by_cases hca : c.toNat < a.toNat <;>
                simp_all <;>
                first
                  | omega
                  | exact ih bs cs h1 h2
                  | exact Or.inr (ih bs cs h1 h2)

/-- A Go-map write shifts a read by one key comparison. -/
lemma mapGet_insert (m : List (String × FileEntry)) (k0 : String) (v : FileEntry)
    (k : String) :
    mapGet (mapInsert m k0 v) k = if k0 = k then some v else mapGet m k := by
  induction m with
  | nil => simp [mapInsert, mapGet]
  | cons p rest ih =>
      obtain ⟨k1, v1⟩ := p
      by_cases h1 : k1 = k0
      · subst h1
        by_cases h2 : k1 = k <;> simp [mapInsert, mapGet, h2]
      · by_cases h2 : k1 = k
        · subst h2
          have h3 : ¬ k0 = k1 := fun hh => h1 hh.symm
          simp [mapInsert, mapGet, h1, h3]
        · simp [mapInsert, mapGet, h1, h2, ih]

/-- Every name the size-budget loop deletes is the stored entry of one of
the keys it was given. -/
lemma sizePhase_mem (m : List (String × FileEntry)) (excess : Int) :
    ∀ (ks : List String) (del : Int) (x : String),
      x ∈ sizePhase m excess ks del → ∃ k, k ∈ ks ∧ x = (entryOf m k).name := by
  intro ks
  induction ks with
  | nil => intro del x hx; simp [sizePhase] at hx
  | cons k rest ih =>
      intro del x hx
      by_cases h : del > excess
      · simp [sizePhase, h] at hx
      · rw [sizePhase, if_neg h] at hx
        rcases List.mem_cons.mp hx with hx | hx
        · exact ⟨k, List.mem_cons_self k rest, hx⟩
        · obtain ⟨k1, hk1, hx1⟩ := ih _ x hx
          exact ⟨k1, List.mem_cons_of_mem _ hk1, hx1⟩

/-- The size-budget loop deletes exactly the keys of a leading segment of
its input: every deleted key was reached with accumulated deleted size
still at most `excess`, and if any key is left, the accumulated size of
the deleted ones strictly exceeds `excess`. -/
lemma sizePhase_spec (m : List (String × FileEntry)) (excess : Int) :
    ∀ (ks : List String) (del : Int),
      ∃ n, n ≤ ks.length ∧
        sizePhase m excess ks del = (ks.take n).map (fun k => (entryOf m k).name) ∧
        (∀ i, i < n → del + sumTake m ks i ≤ excess) ∧
        (n < ks.length → excess < del + sumTake m ks n) := by
  intro ks
  induction ks with
  | nil =>
      intro del
      exact ⟨0, Nat.le_refl 0, by simp [sizePhase], fun i hi => absurd hi (Nat.not_lt_zero i),
        fun h => absurd h (Nat.not_lt_zero 0)⟩
  | cons k rest ih =>
      intro del
      by_cases h : del > excess
      · refine ⟨0, Nat.zero_le _, by simp [sizePhase, h],
          fun i hi => absurd hi (Nat.not_lt_zero i), fun _ => ?_⟩
        simpa [sumTake] using h
      · obtain ⟨n, hn, heq, hle, hgt⟩ := ih (del + (entryOf m k).size)
        have hsum : ∀ j, sumTake m (k :: rest) (j + 1) =
            (entryOf m k).size + sumTake m rest j := by
          intro j
          simp [sumTake, List.take_succ_cons]
        refine ⟨n + 1, Nat.succ_le_succ hn, ?_, ?_, ?_⟩
        · rw [sizePhase, if_neg h, heq, List.take_succ_cons, List.map_cons]
        · intro i hi
          cases i with
          | zero => simpa [sumTake] using not_lt.mp h
          | succ j =>
              have hj : j < n := by omega
              have h1 := hle j hj
              have h2 := hsum j
              omega
        · intro hlen
          have hn1 : n < rest.length := by
            simpa [List.length_cons] using Nat.lt_of_succ_lt_succ hlen
          have h1 := hgt hn1
          have h2 := hsum n
          omega

/-- The walk removes by age exactly the matching, old-enough files, in
walk order. -/
lemma walk_age (w : FileLogWriter) (now : Int) :
    ∀ (es : List FileEntry) (s : WalkState),
      (walk w now es s).ageDeleted =
        s.ageDeleted ++ (es.filter (ageCond w now)).map FileEntry.name := by
  intro es
  induction es with
  | nil => intro s; simp [walk]
  | cons e rest ih =>
      intro s
      by_cases hd : e.isDir = true
      · simp [walk, walkStep, hd, ih, ageCond]
      · by_cases hp : hasPre e.name w.fileNameOnly = true
        · by_cases ha : e.modTime < now - ONE_DAY_SECONDS * w.MaxDays
          · simp [walk, walkStep, hd, hp, ha, ih, ageCond]
          · simp [walk, walkStep, hd, hp, ha, ih, ageCond]
        · simp [walk, walkStep, hd, hp, ih, ageCond]

/-- `totalSize` accumulates exactly the sizes of the age-surviving
matching files. -/
lemma walk_total (w : FileLogWriter) (now : Int) :
    ∀ (es : List FileEntry) (s : WalkState),
      (walk w now es s).totalSize =
        s.totalSize + ((es.filter (keepCond w now)).map FileEntry.size).sum := by
  intro es
  induction es with
  | nil => intro s; simp [walk]
  | cons e rest ih =>
      intro s
      by_cases hd : e.isDir = true
      · simp [walk, walkStep, hd, ih, keepCond]
      · by_cases hp : hasPre e.name w.fileNameOnly = true
        · by_cases ha : e.modTime < now - ONE_DAY_SECONDS * w.MaxDays
          · simp [walk, walkStep, hd, hp, ha, ih, keepCond]
          · rw [walk, ih]
            simp [walkStep, hd, hp, ha, keepCond]
            omega
        · simp [walk, walkStep, hd, hp, ih, keepCond]

/-- Every entry stored in the walk's map came from a non-directory,
stem-matching input entry (or was already in the starting map). -/
lemma walk_map_mem (w : FileLogWriter) (now : Int) :
    ∀ (es : List FileEntry) (s : WalkState) (k : String) (e : FileEntry),
      mapGet (walk w now es s).fileTimeMap k = some e →
      mapGet s.fileTimeMap k = some e ∨
        (e ∈ es ∧ e.isDir = false ∧ hasPre e.name w.fileNameOnly = true) := by
  intro es
  induction es with
  | nil => exact fun s k e h => Or.inl h
  | cons e0 rest ih =>
      intro s k e h
      rw [walk] at h
      by_cases hd : e0.isDir = true
      · rcases ih _ k e (by simpa [walkStep, hd] using h) with h1 | h1
        · exact Or.inl h1
        · exact Or.inr ⟨List.mem_cons_of_mem _ h1.1, h1.2⟩
      · by_cases hp : hasPre e0.name w.fileNameOnly = true
        · by_cases ha : e0.modTime < now - ONE_DAY_SECONDS * w.MaxDays
          · rcases ih _ k e (by simpa [walkStep, hd, hp, ha] using h) with h1 | h1
            · exact Or.inl (by simpa using h1)
            · exact Or.inr ⟨List.mem_cons_of_mem _ h1.1, h1.2⟩
          · rcases ih _ k e (by simpa [walkStep, hd, hp, ha] using h) with h1 | h1
            · have h2 : mapGet (mapInsert s.fileTimeMap e0.timeKey e0) k = some e := h1
              rw [mapGet_insert] at h2
              by_cases hk : e0.timeKey = k
              · rw [if_pos hk] at h2
                have he : e0 = e := by simpa using h2
                exact Or.inr ⟨he ▸ List.mem_cons_self e0 rest,
                  he ▸ (by simpa using hd), he ▸ hp⟩
              · rw [if_neg hk] at h2
                exact Or.inl h2
            · exact Or.inr ⟨List.mem_cons_of_mem _ h1.1, h1.2⟩
        · rcases ih _ k e (by simpa [walkStep, hd, hp] using h) with h1 | h1
          · exact Or.inl h1
          · exact Or.inr ⟨List.mem_cons_of_mem _ h1.1, h1.2⟩

/-- Every key the walk records in `timeKeys` has an entry stored in the
walk's map. -/
lemma walk_keys_some (w : FileLogWriter) (now : Int) :
    ∀ (es : List FileEntry) (s : WalkState),
      (∀ k, k ∈ s.timeKeys → (mapGet s.fileTimeMap k).isSome = true) →
      ∀ k, k ∈ (walk w now es s).timeKeys →
        (mapGet (walk w now es s).fileTimeMap k).isSome = true := by
  intro es
  induction es with
  | nil => exact fun s hs k hk => hs k hk
  | cons e0 rest ih =>
      intro s hs k hk
      rw [walk] at hk ⊢
      refine ih (walkStep w now s e0) ?_ k hk
      intro k1 hk1
      by_cases hd : e0.isDir = true
      · simpa [walkStep, hd] using hs k1 (by simpa [walkStep, hd] using hk1)
      · by_cases hp : hasPre e0.name w.fileNameOnly = true
        · by_cases ha : e0.modTime < now - ONE_DAY_SECONDS * w.MaxDays
          · simpa [walkStep, hd, hp, ha] using
              hs k1 (by simpa [walkStep, hd, hp, ha] using hk1)
          · have hk1' : k1 ∈ s.timeKeys ++ [e0.timeKey] := by
              simpa [walkStep, hd, hp, ha] using hk1
            have hmap : (walkStep w now s e0).fileTimeMap =
                mapInsert s.fileTimeMap e0.timeKey e0 := by
              simp [walkStep, hd, hp, ha]
            rw [hmap, mapGet_insert]
            by_cases hk0 : e0.timeKey = k1
            · simp [hk0]
            · rw [if_neg hk0]
              rcases List.mem_append.mp hk1' with h1 | h1
              · exact hs k1 h1
              · have h2 : k1 = e0.timeKey := by simpa using h1
                exact absurd h2.symm hk0
        · simpa [walkStep, hd, hp] using hs k1 (by simpa [walkStep, hd, hp] using hk1)

/-- The two deletion lists `deleteOldLog` produces, in terms of the walk. -/
lemma deleteOldLog_parts (w : FileLogWriter) (now : Int) (entries : List FileEntry) :
    (deleteOldLog w now entries).ageDeleted = (walk w now entries walkInit).ageDeleted ∧
    (deleteOldLog w now entries).sizeDeleted =
      (if retExcess w now entries ≤ 0 then []
       else sizePhase (retMap w now entries) (retExcess w now entries)
         (retKeys w now entries) 0) := by
  by_cases h : (walk w now entries walkInit).totalSize - w.MaxTotalSize ≤ 0 <;>
    simp [deleteOldLog, retExcess, retMap, retKeys, h]

/-- C3: the size rule iterates over the time keys in ascending order; it
deletes nothing when the age-surviving total does not exceed the budget;
otherwise it deletes the entries of a leading segment of the sorted key
list - oldest first - where every deletion happened with accumulated
deleted size still at most `totalSize - maxTotalSize` and, if any file
is left, the accumulated deleted size strictly exceeds that excess; in
particular on A (oldest, 5 MB), B (7 MB), C (newest, 3 MB) with a 10 MB
budget it deletes exactly A then B and retains C. -/
theorem claim_C3_retention_size_rule (w : FileLogWriter) (now : Int)
    (entries : List FileEntry) :
    List.Sorted (fun a b => keyLe a b = true) (retKeys w now entries)
  ∧ (retExcess w now entries ≤ 0 → (deleteOldLog w now entries).sizeDeleted = [])
  ∧ (0 < retExcess w now entries →
      ∃ n, n ≤ (retKeys w now entries).length ∧
        (deleteOldLog w now entries).sizeDeleted =
          ((retKeys w now entries).take n).map
            (fun k => (entryOf (retMap w now entries) k).name) ∧
        (∀ i, i < n →
          sumTake (retMap w now entries) (retKeys w now entries) i ≤
            retExcess w now entries) ∧
        (n < (retKeys w now entries).length →
          retExcess w now entries <
            sumTake (retMap w now entries) (retKeys w now entries) n))
  ∧ deleteOldLog retW retNow retEntries =
      ⟨[], ["test.2024-01-01-00-00-00.log", "test.2024-01-02-00-00-00.log"]⟩ := by
  refine ⟨?_, ?_, ?_, by decide⟩
  · haveI ht : IsTotal String fun a b => keyLe a b = true :=
      ⟨fun a b => listLe_total a.data b.data⟩
    haveI htr : IsTrans String fun a b => keyLe a b = true :=
      ⟨fun a b c => listLe_trans a.data b.data c.data⟩
    exact List.sorted_insertionSort _ _
  · intro h
    rw [(deleteOldLog_parts w now entries).2, if_pos h]
  · intro h
    obtain ⟨n, hn, heq, hle, hgt⟩ := sizePhase_spec (retMap w now entries)
      (retExcess w now entries) (retKeys w now entries) 0
    refine ⟨n, hn, ?_, ?_, ?_⟩
    · rw [(deleteOldLog_parts w now entries).2, if_neg (by omega)]
      exact heq
    · intro i hi
      have h1 := hle i hi
      omega
    · intro hlen
      have h1 := hgt hlen
      omega

/-- C3, witness: a single 1 MB age-surviving file is under the 10 MB
budget, so the size rule deletes nothing. -/
theorem claim_C3_retention_size_rule_witness :
    (deleteOldLog retW retNow [⟨"test.a.log", false, retNow - 1, MB, "a"⟩]).sizeDeleted
      = [] :=
  (claim_C3_retention_size_rule retW retNow
    [⟨"test.a.log", false, retNow - 1, MB, "a"⟩]).2.1 (by decide)

/-- C6: the walk deletes by age exactly the non-directory files whose
names carry the sink's stem and whose modification time is strictly older
than `now` minus `maxDays` days, in walk order and regardless of any size
budget; the size rule's `totalSize` sums exactly the age-surviving
matching files, excluding the age-deleted ones; and every name retention
deletes - by age or by size - belongs to a non-directory input entry whose
name carries the stem, so directories and non-matching files are never
deleted. -/
theorem claim_C6_retention_age_rule (w : FileLogWriter) (now : Int)
    (entries : List FileEntry) :
    (deleteOldLog w now entries).ageDeleted =
      (entries.filter (ageCond w now)).map FileEntry.name
  ∧ (walk w now entries walkInit).totalSize =
      ((entries.filter (keepCond w now)).map FileEntry.size).sum
  ∧ (∀ nm, nm ∈ (deleteOldLog w now entries).ageDeleted ∨
        nm ∈ (deleteOldLog w now entries).sizeDeleted →
      ∃ e, e ∈ entries ∧ e.name = nm ∧ e.isDir = false ∧
        hasPre e.name w.fileNameOnly = true) := by
  have hage : (deleteOldLog w now entries).ageDeleted =
      (entries.filter (ageCond w now)).map FileEntry.name := by
    rw [(deleteOldLog_parts w now entries).1, walk_age w now entries walkInit]
    simp [walkInit]
  refine ⟨hage, ?_, ?_⟩
  · rw [walk_total w now entries walkInit]
    simp [walkInit]
  · intro nm hnm
    rcases hnm with hnm | hnm
    · rw [hage] at hnm
      obtain ⟨e, he, hname⟩ := List.mem_map.mp hnm
      have hf := List.mem_filter.mp he
      have hc := hf.2
      simp only [ageCond, Bool.and_eq_true, Bool.not_eq_true'] at hc
      exact ⟨e, hf.1, hname, hc.1.1, hc.1.2⟩
    · rw [(deleteOldLog_parts w now entries).2] at hnm
      by_cases hex : retExcess w now entries ≤ 0
      · rw [if_pos hex] at hnm
        simp at hnm
      · rw [if_neg hex] at hnm
        obtain ⟨k, hk, hnmk⟩ := sizePhase_mem (retMap w now entries)
          (retExcess w now entries) (retKeys w now entries) 0 nm hnm
        have hk' : k ∈ (walk w now entries walkInit).timeKeys := by
          simp only [retKeys] at hk
          exact (List.mem_insertionSort _).mp hk
        have hsome := walk_keys_some w now entries walkInit
          (by simp [walkInit, mapGet]) k hk'
        obtain ⟨e, he⟩ := Option.isSome_iff_exists.mp hsome
        rcases walk_map_mem w now entries walkInit k e he with hbad | hgood
        · simp [walkInit, mapGet] at hbad
        · have hent : entryOf (retMap w now entries) k = e := by
            simp [entryOf, retMap, he]
          exact ⟨e, hgood.1, (hnmk.trans (congrArg FileEntry.name hent)).symm,
            hgood.2.1, hgood.2.2⟩

/-- C6, witness: the oldest file the example's size rule deletes is a
non-directory entry of the example directory whose name carries the stem
`test`; and an old non-matching file (`other.log`) is never deleted. -/
theorem claim_C6_retention_age_rule_witness :
    (∃ e, e ∈ retEntries ∧ e.name = "test.2024-01-01-00-00-00.log" ∧ e.isDir = false ∧
      hasPre e.name retW.fileNameOnly = true) ∧
    (deleteOldLog retW retNow
      [⟨"other.log", false, retNow - 100 * ONE_DAY_SECONDS, 20 * MB, "b"⟩]).ageDeleted
      = [] :=
  ⟨(claim_C6_retention_age_rule retW retNow retEntries).2.2
      "test.2024-01-01-00-00-00.log" (Or.inr (by decide)),
   ((claim_C6_retention_age_rule retW retNow
      [⟨"other.log", false, retNow - 100 * ONE_DAY_SECONDS, 20 * MB, "b"⟩]).1).trans
     (by decide)⟩

end Logs
